import Mathlib

/-!
Shallow embedding of the stress-test execution engine of `llm_stresstest.py`
(class `LLMStressTest`): the request executor `send_question`, the
warmup-then-measure run loop `run_test`, the batch scheduler (concurrent
chunks / sequential with abort-on-timeout), the aggregate computation
`calculate_aggregates`, and the output-path derivation
(`sanitize_filename`, `generate_filename`, `save_results`).

Network transport and the quality evaluator are external effects; they are
modelled as oracles: an `Outcome` describes what a single chat-completion
call did (success with answer text, wall-clock elapsed milliseconds and
optional usage metadata; an `asyncio.TimeoutError`; any other exception),
and an `Evaluator` maps (question, answer) to `some metrics` (normal
return) or `none` (the evaluator raised).  Python floats are modelled as
exact rationals; `round(x, n)` is modelled as round-half-to-even on
rationals.
-/

/-- Round-half-to-even on rationals, the semantics of Python's built-in
`round` with `ndigits = None` (banker's rounding). -/
def roundHalfEven (q : ℚ) : ℤ :=
  let f := ⌊q⌋
  let r := q - (f : ℚ)
  if r < 1/2 then f
  else if 1/2 < r then f + 1
  else if f % 2 = 0 then f else f + 1

/-- Python's `round(q, n)` for `n ≥ 1`: round to the nearest multiple of
`10 ^ (-n)`, ties to even. -/
def roundTo (n : ℕ) (q : ℚ) : ℚ :=
  (roundHalfEven (q * 10 ^ n) : ℚ) / 10 ^ n

/-- The structured report returned by `QualityEvaluator.evaluate_answer`
(the twelve fields copied into the result record by `send_question`). -/
structure QualityMetrics where
  structure_score : ℚ
  readability_score : ℚ
  completeness_score : ℚ
  relevance_score : ℚ
  factual_consistency : ℚ
  fluency_score : ℚ
  coherence_score : ℚ
  overall_quality : ℚ
  word_count : ℕ
  sentence_count : ℕ
  avg_sentence_length : ℚ
  unique_words_ratio : ℚ
deriving DecidableEq, Repr

/-- State of the `quality_metrics` key of a result dict: the key is absent
(never written), present with value `None` (evaluator raised), or present
with a metrics report. -/
inductive MetricsEntry where
  | absent : MetricsEntry
  | null : MetricsEntry
  | present : QualityMetrics → MetricsEntry
deriving DecidableEq, Repr

/-- One per-question result record, as initialised and filled in by
`send_question`. -/
structure QResult where
  question : String
  answer : String
  time : ℚ
  token : ℕ
  quality : ℚ
  quality_metrics : MetricsEntry
deriving DecidableEq, Repr

/-- Oracle for one chat-completion call: normal return (answer text, raw
elapsed milliseconds, `usage.completion_tokens` when usage metadata is
present), `asyncio.TimeoutError`, or any other exception.  The elapsed
payload of the failure constructors records the wall-clock time the call
took; whether the code stores it is what the embedding must reveal. -/
inductive Outcome where
  | success : String → ℚ → Option ℕ → Outcome
  | timeout : ℚ → Outcome
  | error : String → ℚ → Outcome
deriving DecidableEq, Repr

/-- Oracle for `QualityEvaluator.evaluate_answer`: `none` models the
evaluator raising an exception. -/
def Evaluator : Type := String → String → Option QualityMetrics

/-- The answer sentinel written on `asyncio.TimeoutError`. -/
def timeoutSentinel : String := "ERROR: Request timed out."

/-- `LLMStressTest.send_question`: build the result dict, fill in answer /
time / token on success, run quality evaluation unless warming up or the
answer is empty or starts with "ERROR", and map exceptions to error
sentinels (leaving the other fields at their initial values). -/
def send_question (ev : Evaluator) (question : String) (out : Outcome)
    (is_warmup : Bool) : QResult :=
  let result : QResult :=
    { question := question
      answer := ""
      time := 0
      token := 0
      quality := 0
      quality_metrics := MetricsEntry.absent }
  match out with
  | Outcome.timeout _ => { result with answer := timeoutSentinel }
  | Outcome.error msg _ => { result with answer := "ERROR: " ++ msg }
  | Outcome.success ans elapsed usage =>
    let r1 : QResult :=
      { result with
        answer := ans
        time := roundTo 1 elapsed
        token := usage.getD 0 }
    if is_warmup then r1
    else if r1.answer ≠ "" ∧ ¬ r1.answer.startsWith "ERROR" then
      match ev question r1.answer with
      | some m =>
        { r1 with
          quality := m.overall_quality
          quality_metrics := MetricsEntry.present m }
      | none =>
        { r1 with
          quality := 0
          quality_metrics := MetricsEntry.null }
    else r1

/-- `LLMStressTest.process_questions_batch`: dispatch a whole chunk and
gather the results in input order (`asyncio.gather` preserves the order of
its arguments). -/
def process_questions_batch (ev : Evaluator) (batch : List (String × Outcome)) :
    List QResult :=
  batch.map (fun p => send_question ev p.1 p.2 false)

/-- The chunking `remaining_questions[i:i+concurrent]` for
`i in range(0, len(remaining_questions), concurrent)` (used with
`concurrent ≥ 2` only). -/
def chunksOf (n : ℕ) : List α → List (List α)
  | [] => []
  | x :: xs => (x :: xs.take (n - 1)) :: chunksOf n (xs.drop (n - 1))
termination_by l => l.length
decreasing_by
  simp only [List.length_cons, List.length_drop]
  omega

/-- The concurrent scheduling loop of `run_test`: execute chunk after
chunk, appending each chunk's results, and stop scheduling further chunks
as soon as a chunk contains the timeout sentinel. -/
def runConc (ev : Evaluator) : List (List (String × Outcome)) → List QResult
  | [] => []
  | chunk :: later =>
    let batch_results := process_questions_batch ev chunk
    if batch_results.any (fun r => r.answer == timeoutSentinel) then
      batch_results
    else
      batch_results ++ runConc ev later

/-- The sequential scheduling loop of `run_test`: one question at a time,
appending each result, and stop before the next question as soon as a
result carries the timeout sentinel. -/
def runSeq (ev : Evaluator) : List (String × Outcome) → List QResult
  | [] => []
  | p :: ps =>
    let r := send_question ev p.1 p.2 false
    if r.answer == timeoutSentinel then [r]
    else r :: runSeq ev ps

/-- What `run_test` produces for the later stages: the collected result
list and the measured `llm_load_time`. -/
structure RunOutput where
  results : List QResult
  llm_load_time : ℚ
deriving DecidableEq, Repr

/-- `LLMStressTest.run_test`, from the warmup phase to the end of the
scheduling loops.  `outs k` is the outcome of the k-th chat-completion
call of the run: call 0 is the warmup execution of the first question,
call 1 its hot re-execution, and call `2 + i` the execution of
`remaining_questions[i]`. -/
def run_test (ev : Evaluator) (outs : ℕ → Outcome) (questions : List String)
    (concurrent : ℕ) : RunOutput :=
  match questions with
  | [] => { results := [], llm_load_time := 0 }
  | first_question :: rest =>
    let warmup_result := send_question ev first_question (outs 0) true
    let real_result := send_question ev first_question (outs 1) false
    let llm_load_time := roundTo 1 (max 0 (warmup_result.time - real_result.time))
    let remaining := rest.enum.map (fun p => (p.2, outs (2 + p.1)))
    let tail :=
      if 1 < concurrent ∧ remaining ≠ [] then
        runConc ev (chunksOf concurrent remaining)
      else
        runSeq ev remaining
    { results := real_result :: tail, llm_load_time := llm_load_time }

/-- `min` of a Python list (defined on nonempty lists; the callers guard
with `if lst else 0`). -/
def minQ : List ℚ → ℚ
  | [] => 0
  | x :: xs => xs.foldl min x

/-- `max` of a Python list (defined on nonempty lists; the callers guard
with `if lst else 0`). -/
def maxQ : List ℚ → ℚ
  | [] => 0
  | x :: xs => xs.foldl max x

/-- `min` of a Python list of ints. -/
def minN : List ℕ → ℕ
  | [] => 0
  | x :: xs => xs.foldl min x

/-- `max` of a Python list of ints. -/
def maxN : List ℕ → ℕ
  | [] => 0
  | x :: xs => xs.foldl max x

/-- The aggregate statistics dict built by `calculate_aggregates`. -/
structure Aggregates where
  runtime_sum : ℚ
  runtime_avg : ℚ
  runtime_min : ℚ
  runtime_max : ℚ
  token_sum : ℕ
  token_avg : ℤ
  token_min : ℕ
  token_max : ℕ
  quality_sum : ℚ
  quality_avg : ℚ
  quality_min : ℚ
  quality_max : ℚ
  llm_load_time : ℚ
  cold_start_factor : ℚ
deriving DecidableEq, Repr

/-- `LLMStressTest.calculate_aggregates`: `none` models the early
`return {}` on an empty result list; otherwise the statistics over the
filtered runtimes / tokens / qualities, each guarded by an emptiness
check. -/
def calculate_aggregates (llm_load_time : ℚ) (results : List QResult) :
    Option Aggregates :=
  if results.isEmpty then none
  else
    let runtimes := (results.filter (fun r => 0 < r.time)).map (fun r => r.time)
    let tokens := (results.filter (fun r => 0 < r.token)).map (fun r => r.token)
    let qualities :=
      (results.filter (fun r => 0 < r.quality)).map (fun r => r.quality)
    let runtime_avg :=
      if runtimes.isEmpty then 0 else roundTo 1 (runtimes.sum / runtimes.length)
    some
      { runtime_sum := if runtimes.isEmpty then 0 else roundTo 1 runtimes.sum
        runtime_avg := runtime_avg
        runtime_min := if runtimes.isEmpty then 0 else roundTo 1 (minQ runtimes)
        runtime_max := if runtimes.isEmpty then 0 else roundTo 1 (maxQ runtimes)
        token_sum := if tokens.isEmpty then 0 else tokens.sum
        token_avg :=
          if tokens.isEmpty then 0
          else roundHalfEven ((tokens.sum : ℚ) / tokens.length)
        token_min := if tokens.isEmpty then 0 else minN tokens
        token_max := if tokens.isEmpty then 0 else maxN tokens
        quality_sum := if qualities.isEmpty then 0 else roundTo 3 qualities.sum
        quality_avg :=
          if qualities.isEmpty then 0
          else roundTo 3 (qualities.sum / qualities.length)
        quality_min := if qualities.isEmpty then 0 else roundTo 3 (minQ qualities)
        quality_max := if qualities.isEmpty then 0 else roundTo 3 (maxQ qualities)
        llm_load_time := llm_load_time
        cold_start_factor :=
          if 0 < llm_load_time ∧ 0 < runtime_avg then
            roundTo 2 (llm_load_time / runtime_avg)
          else 0 }

/-- Characters kept unchanged by the second substitution of
`sanitize_filename` (the regex class `[a-zA-Z0-9\-]`). -/
def isKeep (c : Char) : Bool :=
  ('a' ≤ c ∧ c ≤ 'z') ∨ ('A' ≤ c ∧ c ≤ 'Z') ∨ ('0' ≤ c ∧ c ≤ '9') ∨ c = '-'

/-- `text.replace(' ', '-')`, per character. -/
def spaceToHyphen (c : Char) : Char := if c = ' ' then '-' else c

/-- `re.sub(r'[^a-zA-Z0-9\-]', '_', text)`, per character. -/
def otherToUnderscore (c : Char) : Char := if isKeep c then c else '_'

/-- A hyphen or underscore (the class `[-_]` of the collapsing regex and
of the final `strip`). -/
def isSep (c : Char) : Bool := c = '-' ∨ c = '_'

/-- Tail of the run-collapsing substitution: drop every hyphen/underscore
whose immediate predecessor in the original text is also a
hyphen/underscore. -/
def collapseGo : Char → List Char → List Char
  | _, [] => []
  | prev, c :: rest =>
    if isSep prev ∧ isSep c then collapseGo c rest
    else c :: collapseGo c rest

/-- `re.sub(r'[-_]+', lambda m: m.group(0)[0], text)`: replace every
maximal run of hyphens/underscores by its first character (equivalently,
drop every separator directly preceded by another separator). -/
def collapseRuns : List Char → List Char
  | [] => []
  | c :: rest => c :: collapseGo c rest

/-- `text.strip('-_')`: drop leading and trailing hyphens/underscores. -/
def stripSep (l : List Char) : List Char :=
  ((l.dropWhile isSep).reverse.dropWhile isSep).reverse

/-- `LLMStressTest.sanitize_filename`. -/
def sanitize_filename (text : String) : String :=
  String.mk (stripSep (collapseRuns ((text.data.map spaceToHyphen).map otherToUnderscore)))

/-- `LLMStressTest.generate_filename`: `result_<clean_server>_<clean_model>`. -/
def generate_filename (server_name model : String) : String :=
  "result_" ++ sanitize_filename server_name ++ "_" ++ sanitize_filename model

/-- The output path used by `check_output_file` / `save_results`:
`Path('results') / f"(output_filename).json"`. -/
def output_path (server_name model : String) : String :=
  "results/" ++ generate_filename server_name model ++ ".json"

/-- The claim-relevant part of the artifact written by
`LLMStressTest.save_results`: the aggregates dict and the result list. -/
structure Artifact where
  aggregates : Option Aggregates
  results : List QResult
deriving DecidableEq, Repr

/-- `LLMStressTest.save_results`, restricted to the `aggregates` and
`results` keys of the written JSON object. -/
def save_results (llm_load_time : ℚ) (results : List QResult) : Artifact :=
  { aggregates := calculate_aggregates llm_load_time results
    results := results }

/-- The sanitization step as the specification words it: every whitespace
character becomes a hyphen, every other non-alphanumeric character becomes
an underscore.  Kept separate from `sanitize_filename` (which is
translated from the code) so the two can be compared. -/
def claimSanitize (text : String) : String :=
  String.mk (text.data.map (fun c =>
    if c.isWhitespace then '-' else if c.isAlphanum then c else '_'))

/-- An evaluator oracle that always raises. -/
def ev0 : Evaluator := fun _ _ => none

/-- A fixed metrics report, for exercising the evaluator success path. -/
def mSample : QualityMetrics :=
  { structure_score := 1
    readability_score := 1
    completeness_score := 1
    relevance_score := 1
    factual_consistency := 1
    fluency_score := 1
    coherence_score := 1
    overall_quality := 9/10
    word_count := 4
    sentence_count := 1
    avg_sentence_length := 4
    unique_words_ratio := 1 }

/-- An evaluator oracle that always returns `mSample`. -/
def evSome : Evaluator := fun _ _ => some mSample

/-- A transport oracle where every call succeeds. -/
def outsOk : ℕ → Outcome := fun _ => Outcome.success "ok" 100 (some 5)

/-- A transport oracle where exactly the second call of the run (the hot
re-execution of the first question) times out. -/
def outsHot : ℕ → Outcome :=
  fun n => if n = 1 then Outcome.timeout 250 else Outcome.success "x" 10 (some 1)

/-- `outsHot` with the first two calls (warmup and hot execution of the
first question) replaced; it agrees with `outsHot` from call 2 on. -/
def outsHot2 : ℕ → Outcome :=
  fun n => if n ≤ 1 then Outcome.error "boom" 5 else outsHot n

/-- A successful result with positive time, tokens and quality. -/
def rSample : QResult :=
  { question := "q1"
    answer := "ok"
    time := 100
    token := 3
    quality := 1/2
    quality_metrics := MetricsEntry.absent }

/-- A result with positive time but quality 0. -/
def rq0 : QResult :=
  { question := "q2"
    answer := "ok"
    time := 50
    token := 0
    quality := 0
    quality_metrics := MetricsEntry.absent }

/-- A result with time 0 but a positive token count. -/
def rTok : QResult :=
  { question := "q3"
    answer := ""
    time := 0
    token := 5
    quality := 0
    quality_metrics := MetricsEntry.absent }

/-- A timed-out result: every numeric field 0. -/
def rZero : QResult :=
  { question := "q4"
    answer := timeoutSentinel
    time := 0
    token := 0
    quality := 0
    quality_metrics := MetricsEntry.absent }

/-- `calculate_aggregates 0 [rSample]`. -/
def aggSample : Aggregates :=
  { runtime_sum := 100
    runtime_avg := 100
    runtime_min := 100
    runtime_max := 100
    token_sum := 3
    token_avg := 3
    token_min := 3
    token_max := 3
    quality_sum := 1/2
    quality_avg := 1/2
    quality_min := 1/2
    quality_max := 1/2
    llm_load_time := 0
    cold_start_factor := 0 }

/-- `calculate_aggregates 0 [rSample, rq0]`. -/
def aggPair : Aggregates :=
  { runtime_sum := 150
    runtime_avg := 75
    runtime_min := 50
    runtime_max := 100
    token_sum := 3
    token_avg := 3
    token_min := 3
    token_max := 3
    quality_sum := 1/2
    quality_avg := 1/2
    quality_min := 1/2
    quality_max := 1/2
    llm_load_time := 0
    cold_start_factor := 0 }

/-- `calculate_aggregates 7 [rZero]`. -/
def aggZero7 : Aggregates :=
  { runtime_sum := 0
    runtime_avg := 0
    runtime_min := 0
    runtime_max := 0
    token_sum := 0
    token_avg := 0
    token_min := 0
    token_max := 0
    quality_sum := 0
    quality_avg := 0
    quality_min := 0
    quality_max := 0
    llm_load_time := 7
    cold_start_factor := 0 }

/-- `stopAfter p l` is the prefix of `l` up to and including the first
element satisfying `p` (all of `l` when no element does): the shape of an
execution loop that aborts after a fatal element. -/
def stopAfter (p : α → Bool) : List α → List α
  | [] => []
  | x :: xs => if p x then [x] else x :: stopAfter p xs

theorem send_question_question (ev : Evaluator) (q : String) (out : Outcome)
    (w : Bool) : (send_question ev q out w).question = q := by
  cases out <;> (simp only [send_question]; repeat' split)
  all_goals rfl

theorem send_question_time (ev : Evaluator) (q : String) (out : Outcome)
    (w : Bool) :
    (send_question ev q out w).time =
      match out with
      | Outcome.success _ e _ => roundTo 1 e
      | Outcome.timeout _ => 0
      | Outcome.error _ _ => 0 := by
  cases out <;> (simp only [send_question]; repeat' split)
  all_goals rfl

theorem send_question_answer (ev : Evaluator) (q : String) (out : Outcome)
    (w : Bool) :
    (send_question ev q out w).answer =
      match out with
      | Outcome.success a _ _ => a
      | Outcome.timeout _ => timeoutSentinel
      | Outcome.error m _ => "ERROR: " ++ m := by
  cases out <;> (simp only [send_question]; repeat' split)
  all_goals rfl

theorem roundHalfEven_intCast (z : ℤ) : roundHalfEven (z : ℚ) = z := by
  unfold roundHalfEven
  norm_num [Int.floor_intCast]

theorem roundTo_one_tenth (z : ℤ) : roundTo 1 ((z : ℚ) / 10) = (z : ℚ) / 10 := by
  unfold roundTo
  have h : ((z : ℚ) / 10) * 10 ^ 1 = (z : ℚ) := by
    rw [pow_one]
    field_simp
  rw [h, roundHalfEven_intCast]
  norm_num

theorem exists_tenth_time (ev : Evaluator) (q : String) (out : Outcome)
    (w : Bool) : ∃ z : ℤ, (send_question ev q out w).time = (z : ℚ) / 10 := by
  rw [send_question_time]
  cases out with
  | success a e u =>
    refine ⟨roundHalfEven (e * 10 ^ 1), ?_⟩
    simp only [roundTo]
    norm_num
  | timeout e => exact ⟨0, by norm_num⟩
  | error m e => exact ⟨0, by norm_num⟩

theorem max_zero_div_ten (a : ℚ) : max 0 (a / 10) = max 0 a / 10 := by
  rcases le_total a 0 with h | h
  · rw [max_eq_left (div_nonpos_of_nonpos_of_nonneg h (by norm_num)),
      max_eq_left h]
    norm_num
  · rw [max_eq_right (div_nonneg h (by norm_num)), max_eq_right h]

theorem max_zero_sub_tenth (z₁ z₂ : ℤ) :
    max 0 ((z₁ : ℚ) / 10 - (z₂ : ℚ) / 10) = ((max 0 (z₁ - z₂) : ℤ) : ℚ) / 10 := by
  have h : (z₁ : ℚ) / 10 - (z₂ : ℚ) / 10 = ((z₁ - z₂ : ℤ) : ℚ) / 10 := by
    push_cast
    ring
  rw [h, max_zero_div_ten, Int.cast_max]
  norm_num
theorem runSeq_eq_stopAfter (ev : Evaluator) (ps : List (String × Outcome)) :
    runSeq ev ps =
      stopAfter (fun r => r.answer == timeoutSentinel)
        (ps.map (fun p => send_question ev p.1 p.2 false)) := by
  induction ps with
  | nil => rfl
  | cons p ps ih =>
    simp only [runSeq, List.map_cons, stopAfter, ih]

theorem runConc_eq_stopAfter (ev : Evaluator)
    (chunks : List (List (String × Outcome))) :
    runConc ev chunks =
      (stopAfter (fun rs => rs.any (fun r => r.answer == timeoutSentinel))
        (chunks.map (process_questions_batch ev))).flatten := by
  induction chunks with
  | nil => rfl
  | cons chunk later ih =>
    simp only [runConc, List.map_cons, stopAfter]
    split
    · simp
    · simp [ih]

theorem map_fst_remaining (outs : ℕ → Outcome) (rest : List String) :
    (rest.enum.map (fun p => (p.2, outs (2 + p.1)))).map (fun p => p.1) = rest := by
  rw [List.map_map]
  have : ((fun p : String × Outcome => p.1) ∘
      fun p : ℕ × String => (p.2, outs (2 + p.1))) = fun p : ℕ × String => p.2 := rfl
  rw [this]
  exact List.enum_map_snd rest

theorem runSeq_map_question (ev : Evaluator) (ps : List (String × Outcome)) :
    (runSeq ev ps).map (fun r => r.question) <+: ps.map (fun p => p.1) := by
  induction ps with
  | nil => exact List.nil_prefix
  | cons p ps ih =>
    simp only [runSeq]
    split
    · exact ⟨ps.map (fun p => p.1), by simp [send_question_question]⟩
    · obtain ⟨t, ht⟩ := ih
      exact ⟨t, by simp [send_question_question, ht]⟩

theorem runConc_map_question (ev : Evaluator)
    (chunks : List (List (String × Outcome))) :
    (runConc ev chunks).map (fun r => r.question) <+:
      (chunks.flatten).map (fun p => p.1) := by
  induction chunks with
  | nil => exact List.nil_prefix
  | cons chunk later ih =>
    simp only [runConc]
    split
    · refine ⟨(later.flatten).map (fun p => p.1), ?_⟩
      simp [process_questions_batch, List.map_map, Function.comp,
        send_question_question]
    · obtain ⟨t, ht⟩ := ih
      refine ⟨t, ?_⟩
      simp only [List.flatten_cons, List.map_append, List.append_assoc, ht,
        process_questions_batch, List.map_map]
      congr 1
      simp [Function.comp, send_question_question]

theorem flatten_chunksOf (n : ℕ) (l : List α) : (chunksOf n l).flatten = l := by
  induction l using chunksOf.induct n with
  | case1 => simp [chunksOf]
  | case2 x xs ih =>
    simp only [chunksOf, List.flatten_cons, ih, List.cons_append,
      List.take_append_drop]

theorem runSeq_length_le (ev : Evaluator) (ps : List (String × Outcome)) :
    (runSeq ev ps).length ≤ ps.length := by
  induction ps with
  | nil => exact Nat.le_refl 0
  | cons p ps ih =>
    simp only [runSeq]
    split
    · simp
    · simpa using Nat.succ_le_succ ih

theorem runConc_length_le (ev : Evaluator)
    (chunks : List (List (String × Outcome))) :
    (runConc ev chunks).length ≤ (chunks.flatten).length := by
  induction chunks with
  | nil => exact Nat.le_refl 0
  | cons chunk later ih =>
    simp only [runConc, List.flatten_cons]
    split
    · simp [process_questions_batch]
    · simp only [List.length_append, process_questions_batch, List.length_map]
      omega
/-- C3 (counterexample): at a concrete timed-out call, the result carries
the timeout sentinel but its elapsed time is 0 — the measured duration
(500 ms here) is not recorded, contradicting the claim. -/
theorem C3_counterexample :
    (send_question ev0 "q" (Outcome.timeout 500) false).answer = timeoutSentinel ∧
    (send_question ev0 "q" (Outcome.timeout 500) false).time = 0 :=
  ⟨rfl, rfl⟩

/-- C3 (amended): when a single request ends in a transport timeout, the
returned result has the timeout sentinel as its answer and every other
field left at its initial value — quality 0, token 0, and elapsed time 0;
the measured duration of the timed-out call is not recorded. -/
theorem C3_timeout_result_fields (ev : Evaluator) (q : String) (e : ℚ)
    (w : Bool) :
    send_question ev q (Outcome.timeout e) w =
      { question := q
        answer := timeoutSentinel
        time := 0
        token := 0
        quality := 0
        quality_metrics := MetricsEntry.absent } :=
  rfl

/-- C4: for a run with no questions, `run_test` returns an empty result
list with `llm_load_time = 0` and issues no request (its output does not
depend on the transport or evaluator oracles); for a run with at least one
question, `llm_load_time` equals `max 0 (warmup_elapsed - real_elapsed)`
over the recorded warmup and hot timings, hence is never negative. -/
theorem C4_llm_load_time_clamped :
    (∀ (ev ev' : Evaluator) (outs outs' : ℕ → Outcome) (c c' : ℕ),
       run_test ev outs [] c = { results := [], llm_load_time := 0 } ∧
       run_test ev outs [] c = run_test ev' outs' [] c') ∧
    (∀ (ev : Evaluator) (outs : ℕ → Outcome) (q : String) (rest : List String)
       (c : ℕ),
       (run_test ev outs (q :: rest) c).llm_load_time =
         max 0 ((send_question ev q (outs 0) true).time -
           (send_question ev q (outs 1) false).time) ∧
       0 ≤ (run_test ev outs (q :: rest) c).llm_load_time) := by
  constructor
  · intro ev ev' outs outs' c c'
    exact ⟨rfl, rfl⟩
  · intro ev outs q rest c
    obtain ⟨z₁, h₁⟩ := exists_tenth_time ev q (outs 0) true
    obtain ⟨z₂, h₂⟩ := exists_tenth_time ev q (outs 1) false
    have hload : (run_test ev outs (q :: rest) c).llm_load_time =
        roundTo 1 (max 0 ((send_question ev q (outs 0) true).time -
          (send_question ev q (outs 1) false).time)) := rfl
    constructor
    · rw [hload, h₁, h₂, max_zero_sub_tenth, roundTo_one_tenth,
        ← max_zero_sub_tenth]
    · rw [hload, h₁, h₂, max_zero_sub_tenth, roundTo_one_tenth]
      have hz : (0 : ℤ) ≤ max 0 (z₁ - z₂) := le_max_left 0 (z₁ - z₂)
      have hc : (0 : ℚ) ≤ ((max 0 (z₁ - z₂) : ℤ) : ℚ) := by exact_mod_cast hz
      exact div_nonneg hc (by norm_num)

/-- C10: for a non-warmup successful request whose answer is empty or
starts with "ERROR" (whatever evaluator is plugged in, so the evaluator is
never consulted), quality stays 0 and the `quality_metrics` key is never
written; conversely, the key holds `None` exactly when a non-warmup
successful request with a non-empty, non-"ERROR"-prefixed answer hits an
evaluator exception. -/
theorem C10_quality_gate :
    (∀ (ev ev' : Evaluator) (q ans : String) (e : ℚ) (u : Option ℕ),
       ans = "" ∨ ans.startsWith "ERROR" = true →
         send_question ev q (Outcome.success ans e u) false =
           send_question ev' q (Outcome.success ans e u) false ∧
         (send_question ev q (Outcome.success ans e u) false).quality = 0 ∧
         (send_question ev q (Outcome.success ans e u) false).quality_metrics =
           MetricsEntry.absent) ∧
    (∀ (ev : Evaluator) (q : String) (out : Outcome) (w : Bool),
       (send_question ev q out w).quality_metrics = MetricsEntry.null →
         w = false ∧ ∃ ans e u, out = Outcome.success ans e u ∧
           ans ≠ "" ∧ ans.startsWith "ERROR" = false ∧ ev q ans = none) := by
  constructor
  · intro ev ev' q ans e u h
    have hcond : ¬(¬ans = "" ∧ ans.startsWith "ERROR" = false) := by
      rcases h with h | h
      · exact fun hc => hc.1 h
      · exact fun hc => by rw [h] at hc; simp at hc
    refine ⟨?_, ?_, ?_⟩ <;> simp [send_question, hcond]
  · intro ev q out w h
    cases out with
    | timeout e => simp [send_question] at h
    | error m e => simp [send_question] at h
    | success ans e u =>
      cases w with
      | true => simp [send_question] at h
      | false =>
        by_cases h1 : ans = ""
        · subst h1
          simp [send_question] at h
        · by_cases h2 : ans.startsWith "ERROR" = true
          · have hcond : ¬(¬ans = "" ∧ ans.startsWith "ERROR" = false) :=
              fun hc => by rw [h2] at hc; simp at hc
            simp [send_question, hcond] at h
          · have h2' : ans.startsWith "ERROR" = false := by simpa using h2
            cases hev : ev q ans with
            | some m => simp [send_question, h1, h2', hev] at h
            | none => exact ⟨rfl, ans, e, u, rfl, h1, h2', hev⟩

/-- C10 (witness): a concrete empty answer bypasses quality evaluation
regardless of which evaluator is used. -/
theorem C10_witness :
    send_question ev0 "q" (Outcome.success "" 100 (some 3)) false =
      send_question evSome "q" (Outcome.success "" 100 (some 3)) false ∧
    (send_question ev0 "q" (Outcome.success "" 100 (some 3))
      false).quality = 0 ∧
    (send_question ev0 "q" (Outcome.success "" 100 (some 3))
      false).quality_metrics = MetricsEntry.absent :=
  C10_quality_gate.1 ev0 evSome "q" "" 100 (some 3) (Or.inl rfl)
/-- C5: the computed `cold_start_factor` is the (rounded) quotient of
`llm_load_time` by the computed `runtime_avg` (itself the rounded mean of
the elapsed times of results with time > 0) exactly when both are
positive, and is 0 whenever `llm_load_time` is 0 or that mean is 0, so the
division is guarded against a zero divisor. -/
theorem C5_cold_start_guard :
    ∀ (llm_load_time : ℚ) (results : List QResult) (a : Aggregates),
      calculate_aggregates llm_load_time results = some a →
      (a.runtime_avg =
        (if ((results.filter (fun r => 0 < r.time)).map (fun r => r.time)).isEmpty
         then 0
         else roundTo 1
           (((results.filter (fun r => 0 < r.time)).map (fun r => r.time)).sum /
            ((results.filter (fun r => 0 < r.time)).map (fun r => r.time)).length))) ∧
      (llm_load_time = 0 ∨ a.runtime_avg = 0 → a.cold_start_factor = 0) ∧
      (0 < llm_load_time → 0 < a.runtime_avg →
        a.cold_start_factor = roundTo 2 (llm_load_time / a.runtime_avg)) := by
  intro load results a h
  unfold calculate_aggregates at h
  split at h
  · exact absurd h (by simp)
  · rw [Option.some.injEq] at h
    subst h
    refine ⟨rfl, ?_, ?_⟩
    · intro h0
      dsimp only at h0 ⊢
      rcases h0 with h0 | h0
      · rw [if_neg]
        rintro ⟨h1, -⟩
        exact lt_irrefl 0 (h0 ▸ h1)
      · rw [if_neg]
        rintro ⟨-, h2⟩
        exact lt_irrefl 0 (h0 ▸ h2)
    · intro hl ha
      dsimp only at ha ⊢
      rw [if_pos ⟨hl, ha⟩]

/-- C5 (witness): with `llm_load_time = 0` and one successful result, the
computed cold-start factor is 0. -/
theorem C5_witness : aggSample.cold_start_factor = 0 :=
  (C5_cold_start_guard 0 [rSample] aggSample
    (by norm_num [calculate_aggregates, rSample, aggSample, minQ, maxQ, minN,
      maxN, roundTo, roundHalfEven])).2.1 (Or.inl rfl)

/-- C6 (counterexample): a result list with no positive elapsed time but a
positive token count does not aggregate to all zeros — its `token_sum` is
5 — refuting the all-zero claim (and the empty list yields an empty
mapping, not a zero-filled one). -/
theorem C6_counterexample :
    rTok.time ≤ 0 ∧
    (calculate_aggregates 0 [rTok]).map (fun a => a.token_sum) = some 5 :=
  ⟨by decide, by decide⟩

/-- C6 (amended): aggregation never fails: the empty result list yields
the empty mapping; for a nonempty list every aggregate family is guarded —
no time > 0 forces all runtime aggregates and the cold-start factor to 0,
no token > 0 forces all token aggregates to 0, and no quality > 0 forces
all quality aggregates to 0. -/
theorem C6_zero_guards :
    (∀ llm_load_time : ℚ, calculate_aggregates llm_load_time [] = none) ∧
    (∀ (llm_load_time : ℚ) (results : List QResult) (a : Aggregates),
       calculate_aggregates llm_load_time results = some a →
       ((∀ r ∈ results, r.time ≤ 0) →
          a.runtime_sum = 0 ∧ a.runtime_avg = 0 ∧ a.runtime_min = 0 ∧
          a.runtime_max = 0 ∧ a.cold_start_factor = 0) ∧
       ((∀ r ∈ results, r.token = 0) →
          a.token_sum = 0 ∧ a.token_avg = 0 ∧ a.token_min = 0 ∧
          a.token_max = 0) ∧
       ((∀ r ∈ results, r.quality ≤ 0) →
          a.quality_sum = 0 ∧ a.quality_avg = 0 ∧ a.quality_min = 0 ∧
          a.quality_max = 0)) := by
  constructor
  · intro load
    rfl
  · intro load results a h
    unfold calculate_aggregates at h
    split at h
    · exact absurd h (by simp)
    · rw [Option.some.injEq] at h
      subst h
      refine ⟨?_, ?_, ?_⟩
      · intro ht
        have hf : results.filter (fun r => 0 < r.time) = [] := by
          rw [List.filter_eq_nil_iff]
          intro r hr
          simpa using not_lt.mpr (ht r hr)
        refine ⟨?_, ?_, ?_, ?_, ?_⟩ <;> simp [hf]
      · intro ht
        have hf : results.filter (fun r => 0 < r.token) = [] := by
          rw [List.filter_eq_nil_iff]
          intro r hr
          simp [ht r hr]
        refine ⟨?_, ?_, ?_, ?_⟩ <;> simp [hf]
      · intro ht
        have hf : results.filter (fun r => 0 < r.quality) = [] := by
          rw [List.filter_eq_nil_iff]
          intro r hr
          simpa using not_lt.mpr (ht r hr)
        refine ⟨?_, ?_, ?_, ?_⟩ <;> simp [hf]

/-- C6 (witness): a single timed-out result with `llm_load_time = 7`
aggregates to zero runtime statistics and zero cold-start factor. -/
theorem C6_witness :
    aggZero7.runtime_sum = 0 ∧ aggZero7.runtime_avg = 0 ∧
    aggZero7.runtime_min = 0 ∧ aggZero7.runtime_max = 0 ∧
    aggZero7.cold_start_factor = 0 :=
  (C6_zero_guards.2 7 [rZero] aggZero7 (by decide)).1 (by decide)

/-- C7: the quality aggregates (sum, mean, min, max) depend only on the
sublist of results with quality strictly greater than 0: two result lists
with the same quality-positive sublist get identical quality aggregates,
so quality-0 results never contribute. -/
theorem C7_quality_over_positive_only :
    ∀ (llm_load_time : ℚ) (l₁ l₂ : List QResult) (a₁ a₂ : Aggregates),
      calculate_aggregates llm_load_time l₁ = some a₁ →
      calculate_aggregates llm_load_time l₂ = some a₂ →
      l₁.filter (fun r => 0 < r.quality) = l₂.filter (fun r => 0 < r.quality) →
      a₁.quality_sum = a₂.quality_sum ∧ a₁.quality_avg = a₂.quality_avg ∧
      a₁.quality_min = a₂.quality_min ∧ a₁.quality_max = a₂.quality_max := by
  intro load l₁ l₂ a₁ a₂ h₁ h₂ hf
  unfold calculate_aggregates at h₁ h₂
  split at h₁
  · exact absurd h₁ (by simp)
  · split at h₂
    · exact absurd h₂ (by simp)
    · rw [Option.some.injEq] at h₁ h₂
      subst h₁
      subst h₂
      refine ⟨?_, ?_, ?_, ?_⟩ <;> simp only [hf]

/-- C7 (witness): inserting a quality-0 result into a list leaves the
quality aggregates unchanged. -/
theorem C7_witness :
    aggPair.quality_sum = aggSample.quality_sum ∧
    aggPair.quality_avg = aggSample.quality_avg ∧
    aggPair.quality_min = aggSample.quality_min ∧
    aggPair.quality_max = aggSample.quality_max :=
  C7_quality_over_positive_only 0 [rSample, rq0] [rSample] aggPair aggSample
    (by norm_num [calculate_aggregates, rSample, rq0, aggPair, minQ, maxQ,
      minN, maxN, roundTo, roundHalfEven])
    (by norm_num [calculate_aggregates, rSample, aggSample, minQ, maxQ, minN,
      maxN, roundTo, roundHalfEven])
    (by norm_num [rSample, rq0])
theorem run_test_map_question (ev : Evaluator) (outs : ℕ → Outcome)
    (questions : List String) (c : ℕ) :
    (run_test ev outs questions c).results.map (fun r => r.question) <+:
      questions := by
  cases questions with
  | nil => exact List.nil_prefix
  | cons q rest =>
    show ((send_question ev q (outs 1) false ::
      (if 1 < c ∧ (rest.enum.map (fun p => (p.2, outs (2 + p.1)))) ≠ [] then
        runConc ev (chunksOf c (rest.enum.map (fun p => (p.2, outs (2 + p.1)))))
      else
        runSeq ev (rest.enum.map (fun p => (p.2, outs (2 + p.1)))))).map
          (fun r => r.question)) <+: q :: rest
    rw [List.map_cons, send_question_question]
    have htail : (if 1 < c ∧ (rest.enum.map (fun p => (p.2, outs (2 + p.1)))) ≠ [] then
        runConc ev (chunksOf c (rest.enum.map (fun p => (p.2, outs (2 + p.1)))))
      else
        runSeq ev (rest.enum.map (fun p => (p.2, outs (2 + p.1))))).map
          (fun r => r.question) <+: rest := by
      split
      · have h1 := runConc_map_question ev
          (chunksOf c (rest.enum.map (fun p => (p.2, outs (2 + p.1)))))
        rw [flatten_chunksOf, map_fst_remaining] at h1
        exact h1
      · have h1 := runSeq_map_question ev
          (rest.enum.map (fun p => (p.2, outs (2 + p.1))))
        rw [map_fst_remaining] at h1
        exact h1
    obtain ⟨t, ht⟩ := htail
    exact ⟨t, by rw [List.cons_append, ht]⟩

/-- C8: the surviving result list preserves question order: in every mode
the questions of the results form a prefix of the question list (sequential
mode appends one result per question in order; concurrent mode appends the
results of each chunk in the chunk's input order, and whole chunks in
order), and the concurrent-gather primitive returns the batch's results in
input order. -/
theorem C8_order_preserved :
    (∀ (ev : Evaluator) (outs : ℕ → Outcome) (questions : List String) (c : ℕ),
       (run_test ev outs questions c).results.map (fun r => r.question) <+:
         questions) ∧
    (∀ (ev : Evaluator) (batch : List (String × Outcome)),
       process_questions_batch ev batch =
         batch.map (fun p => send_question ev p.1 p.2 false)) :=
  ⟨run_test_map_question, fun _ _ => rfl⟩

/-- C1 (counterexample): when the first question recurs later in the list,
the result list has two entries whose question equals `questions[0]`, not
exactly one. -/
theorem C1_counterexample :
    ((run_test ev0 outsOk ["a", "a"] 1).results.map
      (fun r => r.question)).count "a" = 2 := by
  decide

/-- C1 (amended): the first entry of the result list is the one produced
by the second (hot) execution of `questions[0]`; the warmup result is
never appended as an extra entry (the result list never exceeds the number
of questions); and when `questions[0]` does not recur among the remaining
questions, exactly one result entry carries it. -/
theorem C1_first_question_hot_result :
    (∀ (ev : Evaluator) (outs : ℕ → Outcome) (q : String) (rest : List String)
       (c : ℕ),
       (run_test ev outs (q :: rest) c).results.head? =
         some (send_question ev q (outs 1) false)) ∧
    (∀ (ev : Evaluator) (outs : ℕ → Outcome) (questions : List String) (c : ℕ),
       (run_test ev outs questions c).results.length ≤ questions.length) ∧
    (∀ (ev : Evaluator) (outs : ℕ → Outcome) (q : String) (rest : List String)
       (c : ℕ), q ∉ rest →
       ((run_test ev outs (q :: rest) c).results.map
         (fun r => r.question)).count q = 1) := by
  refine ⟨fun ev outs q rest c => rfl, ?_, ?_⟩
  · intro ev outs questions c
    cases questions with
    | nil => exact Nat.le_refl 0
    | cons q rest =>
      have hrem : (rest.enum.map (fun p => (p.2, outs (2 + p.1)))).length =
          rest.length := by
        simp
      show ((send_question ev q (outs 1) false ::
        (if 1 < c ∧ (rest.enum.map (fun p => (p.2, outs (2 + p.1)))) ≠ [] then
          runConc ev (chunksOf c (rest.enum.map (fun p => (p.2, outs (2 + p.1)))))
        else
          runSeq ev (rest.enum.map (fun p => (p.2, outs (2 + p.1)))))).length) ≤
            (q :: rest).length
      rw [List.length_cons, List.length_cons]
      refine Nat.succ_le_succ ?_
      split
      · have h1 := runConc_length_le ev
          (chunksOf c (rest.enum.map (fun p => (p.2, outs (2 + p.1)))))
        rw [flatten_chunksOf, hrem] at h1
        exact h1
      · have h1 := runSeq_length_le ev
          (rest.enum.map (fun p => (p.2, outs (2 + p.1))))
        rw [hrem] at h1
        exact h1
  · intro ev outs q rest c hq
    have hform : (run_test ev outs (q :: rest) c).results.map
        (fun r => r.question) =
        q :: ((run_test ev outs (q :: rest) c).results.tail.map
          (fun r => r.question)) := by
      have hres : (run_test ev outs (q :: rest) c).results =
          send_question ev q (outs 1) false ::
            (run_test ev outs (q :: rest) c).results.tail := rfl
      conv_lhs => rw [hres]
      rw [List.map_cons, send_question_question]
    obtain ⟨t, ht⟩ := run_test_map_question ev outs (q :: rest) c
    rw [hform] at ht ⊢
    rw [List.cons_append, List.cons.injEq] at ht
    obtain ⟨-, hmt⟩ := ht
    have h0 : rest.count q = 0 := List.count_eq_zero.mpr hq
    have hle : ((run_test ev outs (q :: rest) c).results.tail.map
        (fun r => r.question)).count q = 0 := by
      have hsub : ((run_test ev outs (q :: rest) c).results.tail.map
          (fun r => r.question)).count q ≤
          (((run_test ev outs (q :: rest) c).results.tail.map
            (fun r => r.question)) ++ t).count q := by
        rw [List.count_append]
        exact Nat.le_add_right _ _
      rw [hmt, h0] at hsub
      exact Nat.le_zero.mp hsub
    rw [List.count_cons_self, hle]

/-- C1 (witness): with two distinct questions and all calls succeeding,
exactly one result entry carries the first question. -/
theorem C1_witness :
    ((run_test ev0 outsOk ["a", "b"] 1).results.map
      (fun r => r.question)).count "a" = 1 :=
  C1_first_question_hot_result.2.2 ev0 outsOk "a" ["b"] 1 (by decide)
/-- C2 (counterexample): a timeout of the hot re-execution of the first
question does not stop the run — the next question is still sent — so
"once any request's result carries the timeout sentinel, no further
questions are executed" fails at this input. -/
theorem C2_counterexample :
    (run_test ev0 outsHot ["a", "b"] 1).results.map
      (fun r => (r.question, r.answer)) =
      [("a", "ERROR: Request timed out."), ("b", "x")] := by
  decide

/-- C2 (amended): only a timeout among the remaining (post-first)
questions halts scheduling: the sequential loop is the input-order map
truncated just after the first sentinel result, the concurrent loop is the
chunk-wise map truncated just after the first chunk containing a sentinel
(that chunk is still appended whole), the processing of the remaining
questions is independent of the two first-question calls (so a warmup or
hot-execution timeout does not stop the run), and whatever was collected
is aggregated and persisted by `save_results`. -/
theorem C2_abort_on_timeout_scope :
    (∀ (ev : Evaluator) (ps : List (String × Outcome)),
       runSeq ev ps =
         stopAfter (fun r => r.answer == timeoutSentinel)
           (ps.map (fun p => send_question ev p.1 p.2 false))) ∧
    (∀ (ev : Evaluator) (chunks : List (List (String × Outcome))),
       runConc ev chunks =
         (stopAfter (fun rs => rs.any (fun r => r.answer == timeoutSentinel))
           (chunks.map (process_questions_batch ev))).flatten) ∧
    (∀ (ev : Evaluator) (outs outs' : ℕ → Outcome) (q : String)
       (rest : List String) (c : ℕ),
       (∀ i, 2 ≤ i → outs i = outs' i) →
       (run_test ev outs (q :: rest) c).results.tail =
         (run_test ev outs' (q :: rest) c).results.tail) ∧
    (∀ (llm_load_time : ℚ) (results : List QResult),
       (save_results llm_load_time results).aggregates =
         calculate_aggregates llm_load_time results ∧
       (save_results llm_load_time results).results = results) := by
  refine ⟨runSeq_eq_stopAfter, runConc_eq_stopAfter, ?_, fun _ _ => ⟨rfl, rfl⟩⟩
  intro ev outs outs' q rest c h
  have hrem : rest.enum.map (fun p => (p.2, outs (2 + p.1))) =
      rest.enum.map (fun p => (p.2, outs' (2 + p.1))) :=
    List.map_congr_left (fun p _ => by rw [h (2 + p.1) (by omega)])
  show (if 1 < c ∧ (rest.enum.map (fun p => (p.2, outs (2 + p.1)))) ≠ [] then
      runConc ev (chunksOf c (rest.enum.map (fun p => (p.2, outs (2 + p.1)))))
    else
      runSeq ev (rest.enum.map (fun p => (p.2, outs (2 + p.1))))) =
    (if 1 < c ∧ (rest.enum.map (fun p => (p.2, outs' (2 + p.1)))) ≠ [] then
      runConc ev (chunksOf c (rest.enum.map (fun p => (p.2, outs' (2 + p.1)))))
    else
      runSeq ev (rest.enum.map (fun p => (p.2, outs' (2 + p.1)))))
  rw [hrem]

/-- C2 (witness): replacing the outcomes of the two first-question calls
(here by plain errors) leaves the processing of the remaining questions
unchanged. -/
theorem C2_witness :
    (run_test ev0 outsHot ["a", "b"] 1).results.tail =
      (run_test ev0 outsHot2 ["a", "b"] 1).results.tail :=
  C2_abort_on_timeout_scope.2.2.1 ev0 outsHot outsHot2 "a" ["b"] 1
    (fun i hi => by
      simp only [outsHot2]
      rw [if_neg (by omega)])

theorem mem_collapseGo {c : Char} :
    ∀ (prev : Char) (l : List Char), c ∈ collapseGo prev l → c ∈ l := by
  intro prev l
  induction l generalizing prev with
  | nil => exact fun h => absurd h (List.not_mem_nil c)
  | cons d rest ih =>
    intro h
    simp only [collapseGo] at h
    split at h
    · exact List.mem_cons_of_mem d (ih d h)
    · rcases List.mem_cons.mp h with h | h
      · exact List.mem_cons.mpr (Or.inl h)
      · exact List.mem_cons_of_mem d (ih d h)

theorem mem_collapseRuns {c : Char} {l : List Char} (h : c ∈ collapseRuns l) :
    c ∈ l := by
  cases l with
  | nil => exact absurd h (List.not_mem_nil c)
  | cons d rest =>
    rcases List.mem_cons.mp h with h | h
    · exact List.mem_cons.mpr (Or.inl h)
    · exact List.mem_cons_of_mem d (mem_collapseGo d rest h)

theorem mem_stripSep {c : Char} {l : List Char} (h : c ∈ stripSep l) :
    c ∈ l := by
  unfold stripSep at h
  rw [List.mem_reverse] at h
  have h2 := ((l.dropWhile isSep).reverse.dropWhile_sublist isSep).subset h
  rw [List.mem_reverse] at h2
  exact (l.dropWhile_sublist isSep).subset h2

/-- C9 (counterexample): the code replaces only the space character by a
hyphen; a tab — a whitespace character — becomes an underscore, not the
hyphen the claim prescribes. -/
theorem C9_counterexample :
    sanitize_filename "a\tb" = "a_b" ∧ claimSanitize "a\tb" = "a-b" ∧
    sanitize_filename "a\tb" ≠ claimSanitize "a\tb" :=
  ⟨by decide, by decide, by decide⟩

/-- C9 (amended): the artifact path is
`results/result_<sanitized-server>_<sanitized-model>.json`, where
sanitization replaces the space character by a hyphen, every other
character that is not an ASCII letter, digit or hyphen by an underscore,
collapses every run of hyphens/underscores to its first character and
strips leading/trailing hyphens/underscores — so every character of a
sanitized name is an ASCII letter, digit, hyphen or underscore — and the
derived path depends only on the server name and model strings. -/
theorem C9_output_path :
    (∀ server_name model : String,
       output_path server_name model =
         "results/" ++ generate_filename server_name model ++ ".json" ∧
       generate_filename server_name model =
         "result_" ++ sanitize_filename server_name ++ "_" ++
           sanitize_filename model) ∧
    (∀ text : String, ∀ c ∈ (sanitize_filename text).data,
       isKeep c = true ∨ c = '_') ∧
    (∀ s₁ m₁ s₂ m₂ : String, s₁ = s₂ → m₁ = m₂ →
       output_path s₁ m₁ = output_path s₂ m₂) := by
  refine ⟨fun s m => ⟨rfl, rfl⟩, ?_, ?_⟩
  · intro text c hc
    have hc' : c ∈ (text.data.map spaceToHyphen).map otherToUnderscore :=
      mem_collapseRuns (mem_stripSep hc)
    obtain ⟨d, -, rfl⟩ := List.mem_map.mp hc'
    by_cases hk : isKeep d = true
    · left
      simp [otherToUnderscore, hk]
    · right
      simp [otherToUnderscore, hk]
  · intro s₁ m₁ s₂ m₂ h1 h2
    rw [h1, h2]

/-- C9 (witness): a concrete sanitized character is in the allowed class. -/
theorem C9_witness : isKeep '-' = true ∨ '-' = '_' :=
  C9_output_path.2.1 "a b" '-' (by decide)
